import Mathlib

/-!
Shallow embedding of the Flask service in `app/app.py` (repository
sridhargude/gke-hpa) and verification of its specification.

Modelling conventions:
* Wall-clock time is modelled over `ℚ`.  The `/compute` busy loop reads the
  clock once before the loop (`start_time`) and once at each `while` guard;
  the clock advance between two consecutive guard reads is the duration of
  the inner `for i in range(1000)` pass executed between them, given by a
  function `p : ℕ → ℚ` (duration of the k-th pass).  Reads with no work in
  between (the `start_time` read and the first guard, and the final
  `elapsed` read after the failing guard) are idealised as instantaneous.
* The unbounded `while` loop is embedded with explicit fuel, returning
  `none` when the fuel runs out (the real loop would still be running).
* Python's arbitrary-precision integers are `ℕ` (all quantities involved
  are non-negative), floats are `ℚ`, and `round(x, 2)` is exact
  round-half-to-even on `ℚ`.
* Ambient data (environment variables, the resolved host address, the
  current timestamp string, `os.sys.version`, and the behaviour of the
  Python `float` builtin on strings) are parameters of the embedding.
-/

namespace GkeHpa

/-- JSON scalar values appearing in the service's response bodies. -/
inductive JVal where
  | str (s : String)
  | num (q : ℚ)
  deriving DecidableEq, Repr

/-- An HTTP response: a JSON object (association list, in insertion order)
together with the HTTP status code. -/
structure Response where
  body : List (String × JVal)
  status : ℕ
  deriving DecidableEq, Repr

/-- Process identity, read from the environment once at startup
(`POD_NAME`, `POD_NAMESPACE`, `POD_IP` in `app.py` lines 17-20). -/
structure Identity where
  podName : String
  podNamespace : String
  podIP : String
  deriving DecidableEq, Repr

/-- Startup initialisation of the process identity:
`os.environ.get('POD_NAME', 'unknown-pod')`,
`os.environ.get('POD_NAMESPACE', 'default')`,
`os.environ.get('POD_IP', socket.gethostbyname(socket.gethostname()))`.
`env` models `os.environ.get` and `hostIP` the resolved host address. -/
def initIdentity (env : String → Option String) (hostIP : String) : Identity where
  podName := (env "POD_NAME").getD "unknown-pod"
  podNamespace := (env "POD_NAMESPACE").getD "default"
  podIP := (env "POD_IP").getD hostIP

/-- Embedding of `sum(j for j in range(2, i) if i % j == 0)` from
`app.py` line 75: the sum of the j in `range(2, i)` dividing i.
(`range(2, i)` is the elements of `range(i)` that are at least 2.) -/
def divisorSum (i : ℕ) : ℕ :=
  ((List.range i).filter (fun j => decide (2 ≤ j) && decide (i % j = 0))).sum

/-- Embedding of one full pass of the inner loop
`for i in range(1000): result += sum(...)` (`app.py` lines 74-75):
the total added to `result` by one pass. -/
def innerPass : ℕ :=
  (List.range 1000).foldl (fun acc i => acc + divisorSum i) 0

/-- Clock value at the n-th `while`-guard read, relative to `start_time`:
the sum of the durations of the first n inner passes. -/
def elapsedAfter (p : ℕ → ℚ) : ℕ → ℚ
  | 0 => 0
  | n + 1 => elapsedAfter p n + p n

/-- Embedding of the busy loop of `/compute` (`app.py` lines 72-75):
`while time.time() - start_time < duration: for i in range(1000): result += ...`.
`p` gives each pass's duration, `d` is the (already clamped) duration,
`n` the passes executed so far, `acc` the accumulated `result`.
Returns `some (passes, result)` on exit, `none` if the fuel runs out. -/
def computeLoop (p : ℕ → ℚ) (d : ℚ) : ℕ → ℕ → ℕ → Option (ℕ × ℕ)
  | 0, _, _ => none
  | fuel + 1, n, acc =>
    if elapsedAfter p n < d then computeLoop p d fuel (n + 1) (acc + innerPass)
    else some (n, acc)

/-- Embedding of `duration = min(duration, 60.0)` (`app.py` line 66):
the effective duration used as the loop threshold. -/
def effDuration (d : ℚ) : ℚ := min d 60

/-- Round-half-to-even to an integer, modelling Python's `round` tie
behaviour exactly on `ℚ`. -/
def roundHalfEven (q : ℚ) : ℤ :=
  if q - Int.floor q < 1 / 2 then Int.floor q
  else if 1 / 2 < q - Int.floor q then Int.floor q + 1
  else if Int.floor q % 2 = 0 then Int.floor q else Int.floor q + 1

/-- Embedding of `round(elapsed, 2)` (`app.py` line 85). -/
def round2 (q : ℚ) : ℚ := (roundHalfEven (q * 100) : ℚ) / 100

/-- Embedding of the `/` handler `hello` (`app.py` lines 22-36).
`ts` models `datetime.utcnow().isoformat()`. -/
def hello (id : Identity) (ts : String) : Response where
  body := [("message", JVal.str "Hello, World!"),
           ("pod_name", JVal.str id.podName),
           ("pod_namespace", JVal.str id.podNamespace),
           ("pod_ip", JVal.str id.podIP),
           ("timestamp", JVal.str ts),
           ("version", JVal.str "1.0")]
  status := 200

/-- Embedding of the `/health` handler (`app.py` lines 38-45). -/
def health (id : Identity) (ts : String) : Response where
  body := [("status", JVal.str "healthy"),
           ("pod_name", JVal.str id.podName),
           ("timestamp", JVal.str ts)]
  status := 200

/-- Embedding of the `/ready` handler (`app.py` lines 47-54). -/
def ready (id : Identity) (ts : String) : Response where
  body := [("status", JVal.str "ready"),
           ("pod_name", JVal.str id.podName),
           ("timestamp", JVal.str ts)]
  status := 200

/-- Embedding of the `/metrics` handler (`app.py` lines 90-101). -/
def metrics (id : Identity) (ts : String) : Response where
  body := [("pod_name", JVal.str id.podName),
           ("pod_namespace", JVal.str id.podNamespace),
           ("pod_ip", JVal.str id.podIP),
           ("timestamp", JVal.str ts)]
  status := 200

/-- Embedding of the `/info` handler (`app.py` lines 103-112).
`pyver` models `os.sys.version`. -/
def info (id : Identity) (ts pyver : String) : Response where
  body := [("pod_name", JVal.str id.podName),
           ("pod_namespace", JVal.str id.podNamespace),
           ("pod_ip", JVal.str id.podIP),
           ("python_version", JVal.str pyver),
           ("timestamp", JVal.str ts)]
  status := 200

/-- Embedding of the 404 handler `not_found` (`app.py` lines 114-121). -/
def notFound (id : Identity) : Response where
  body := [("error", JVal.str "Not found"),
           ("status", JVal.num 404),
           ("pod_name", JVal.str id.podName)]
  status := 404

/-- Embedding of the 500 handler `internal_error` (`app.py` lines 123-131). -/
def internalError (id : Identity) : Response where
  body := [("error", JVal.str "Internal server error"),
           ("status", JVal.num 500),
           ("pod_name", JVal.str id.podName)]
  status := 500

/-- Embedding of the `/compute` handler (`app.py` lines 56-88).
`durParam` is `request.args.get('duration')`; `parse` models the Python
`float` builtin on strings, with `none` for a `ValueError`, in which case
Flask routes the unhandled exception to the registered 500 handler.
Returns `none` only when the loop fuel runs out (handler still running). -/
def compute (id : Identity) (ts : String) (p : ℕ → ℚ) (fuel : ℕ)
    (parse : String → Option ℚ) (durParam : Option String) : Option Response :=
  match durParam with
  | none => computeWith id ts p fuel 1
  | some s =>
    match parse s with
    | none => some (internalError id)
    | some d0 => computeWith id ts p fuel d0
where
  computeWith (id : Identity) (ts : String) (p : ℕ → ℚ) (fuel : ℕ) (d0 : ℚ) :
      Option Response :=
    let d := effDuration d0
    match computeLoop p d fuel 0 0 with
    | none => none
    | some (n, res) =>
      some { body := [("message", JVal.str "Computation completed"),
                      ("pod_name", JVal.str id.podName),
                      ("duration_requested", JVal.num d),
                      ("duration_actual", JVal.num (round2 (elapsedAfter p n))),
                      ("result", JVal.num res),
                      ("timestamp", JVal.str ts)],
             status := 200 }

/-- A request: the path and the optional `duration` query parameter. -/
structure Request where
  path : String
  durParam : Option String
  deriving DecidableEq, Repr

/-- Route dispatch of the Flask app: the registered routes, with every
unmatched path going to the 404 handler.  `none` only when `/compute`
runs out of fuel. -/
def dispatch (id : Identity) (ts pyver : String) (p : ℕ → ℚ) (fuel : ℕ)
    (parse : String → Option ℚ) (req : Request) : Option Response :=
  if req.path = "/" then some (hello id ts)
  else if req.path = "/health" then some (health id ts)
  else if req.path = "/ready" then some (ready id ts)
  else if req.path = "/compute" then compute id ts p fuel parse req.durParam
  else if req.path = "/metrics" then some (metrics id ts)
  else if req.path = "/info" then some (info id ts pyver)
  else some (notFound id)

/-- One request-handling step of the server: handlers read the identity
and never write it, so the process state after a request is unchanged. -/
def handle (id : Identity) (ts pyver : String) (p : ℕ → ℚ) (fuel : ℕ)
    (parse : String → Option ℚ) (req : Request) : Identity × Option Response :=
  (id, dispatch id ts pyver p fuel parse req)

/-- The process identity after serving a whole sequence of requests. -/
def serveAll (id : Identity) (ts pyver : String) (p : ℕ → ℚ) (fuel : ℕ)
    (parse : String → Option ℚ) (reqs : List Request) : Identity :=
  reqs.foldl (fun st req => (handle st ts pyver p fuel parse req).1) id

/-- A response body has an explicit numeric `status` field matching the
HTTP status code of the response. -/
def hasStatusField (r : Response) : Prop :=
  r.body.lookup "status" = some (JVal.num r.status)

/-- The constant of claim C10, written as the claim states it: the sum
over i in 0..999 of the sum of all j in [2, i) with i mod j = 0. -/
def C_spec : ℕ :=
  Finset.sum (Finset.range 1000)
    (fun i => Finset.sum ((Finset.range i).filter (fun j => 2 ≤ j ∧ i % j = 0)) id)


/-! Helper lemmas shared by the claim theorems. -/

/-- Folding addition of `f` over a list starting at `a` is `a` plus the sum
of the mapped list. -/
theorem foldl_add_eq (f : ℕ → ℕ) (l : List ℕ) (a : ℕ) :
    List.foldl (fun acc i => acc + f i) a l = a + (l.map f).sum := by
  induction l generalizing a with
  | nil => simp
  | cons x xs ih => simp [List.foldl, ih, add_assoc]

/-- Sum of a function mapped over `List.range` equals the `Finset.range` sum. -/
theorem sum_map_range (f : ℕ → ℕ) (n : ℕ) :
    ((List.range n).map f).sum = Finset.sum (Finset.range n) f := by
  induction n with
  | zero => simp
  | succ m ih =>
    rw [List.range_succ]
    simp [ih, Finset.sum_range_succ]

/-- Sum of a filtered `List.range` equals the sum over the filtered
`Finset.range`. -/
theorem sum_filter_range (n : ℕ) (P : ℕ → Prop) [DecidablePred P] :
    ((List.range n).filter (fun j => decide (P j))).sum =
      Finset.sum ((Finset.range n).filter P) id := by
  induction n with
  | zero => simp
  | succ m ih =>
    rw [List.range_succ, Finset.range_succ, List.filter_append, Finset.filter_insert]
    by_cases h : P m
    · rw [if_pos h, Finset.sum_insert
        (fun hm => (Finset.mem_range.mp (Finset.mem_filter.mp hm).1).false)]
      simp [h, ih, Nat.add_comm]
    · rw [if_neg h]
      simp [h, ih]

/-- The increment of one inner pass is the constant named in claim C10. -/
theorem innerPass_eq_C_spec : innerPass = C_spec := by
  unfold innerPass C_spec
  rw [foldl_add_eq, Nat.zero_add, sum_map_range]
  refine Finset.sum_congr rfl (fun i _ => ?_)
  unfold divisorSum
  rw [← sum_filter_range i (fun j => 2 ≤ j ∧ i % j = 0)]
  simp [Bool.decide_and]

/-- The busy loop only exits once the elapsed time has reached the
threshold `d`. -/
theorem computeLoop_exit (p : ℕ → ℚ) (d : ℚ) (fuel : ℕ) :
    ∀ n acc n2 acc2, computeLoop p d fuel n acc = some (n2, acc2) →
      d ≤ elapsedAfter p n2 := by
  induction fuel with
  | zero => intro n acc n2 acc2 h; simp [computeLoop] at h
  | succ m ih =>
    intro n acc n2 acc2 h
    rw [computeLoop] at h
    by_cases hc : elapsedAfter p n < d
    · rw [if_pos hc] at h
      exact ih _ _ _ _ h
    · rw [if_neg hc] at h
      simp only [Option.some.injEq, Prod.mk.injEq] at h
      obtain ⟨hn, -⟩ := h
      subst hn
      exact not_lt.mp hc

/-- The busy loop's pass count never decreases, and on exit the guard still
held one pass earlier (unless no pass ran at all). -/
theorem computeLoop_progress (p : ℕ → ℚ) (d : ℚ) (fuel : ℕ) :
    ∀ n acc n2 acc2, computeLoop p d fuel n acc = some (n2, acc2) →
      n ≤ n2 ∧ (n2 = n ∨ elapsedAfter p (n2 - 1) < d) := by
  induction fuel with
  | zero => intro n acc n2 acc2 h; simp [computeLoop] at h
  | succ m ih =>
    intro n acc n2 acc2 h
    rw [computeLoop] at h
    by_cases hc : elapsedAfter p n < d
    · rw [if_pos hc] at h
      obtain ⟨hle, hor⟩ := ih _ _ _ _ h
      refine ⟨by omega, Or.inr ?_⟩
      rcases hor with heq | hlt
      · subst heq
        simpa using hc
      · exact hlt
    · rw [if_neg hc] at h
      simp only [Option.some.injEq, Prod.mk.injEq] at h
      obtain ⟨hn, -⟩ := h
      subst hn
      exact ⟨le_refl n, Or.inl rfl⟩

/-- The busy loop adds exactly `innerPass` to the accumulator per pass. -/
theorem computeLoop_acc (p : ℕ → ℚ) (d : ℚ) (fuel : ℕ) :
    ∀ n acc n2 acc2, computeLoop p d fuel n acc = some (n2, acc2) →
      ∃ k, n2 = n + k ∧ acc2 = acc + k * innerPass := by
  induction fuel with
  | zero => intro n acc n2 acc2 h; simp [computeLoop] at h
  | succ m ih =>
    intro n acc n2 acc2 h
    rw [computeLoop] at h
    by_cases hc : elapsedAfter p n < d
    · rw [if_pos hc] at h
      obtain ⟨k, hk1, hk2⟩ := ih _ _ _ _ h
      exact ⟨k + 1, by omega, by rw [hk2]; ring⟩
    · rw [if_neg hc] at h
      simp only [Option.some.injEq, Prod.mk.injEq] at h
      obtain ⟨hn, ha⟩ := h
      exact ⟨0, by omega, by omega⟩

/-- Round-half-to-even moves a rational by at most one half. -/
theorem roundHalfEven_bounds (q : ℚ) :
    q - 1 / 2 ≤ (roundHalfEven q : ℚ) ∧ (roundHalfEven q : ℚ) ≤ q + 1 / 2 := by
  have h1 : (Int.floor q : ℚ) ≤ q := Int.floor_le q
  have h2 : q < Int.floor q + 1 := Int.lt_floor_add_one q
  have hcast : ((Int.floor q + 1 : ℤ) : ℚ) = (Int.floor q : ℚ) + 1 := by
    push_cast
    ring
  unfold roundHalfEven
  split_ifs with ha hb hc
  · exact ⟨by linarith, by linarith⟩
  · rw [hcast]
    exact ⟨by linarith, by linarith⟩
  · have heq : q - Int.floor q = 1 / 2 := le_antisymm (not_lt.mp hb) (not_lt.mp ha)
    exact ⟨by linarith, by linarith⟩
  · have heq : q - Int.floor q = 1 / 2 := le_antisymm (not_lt.mp hb) (not_lt.mp ha)
    rw [hcast]
    exact ⟨by linarith, by linarith⟩

/-- Rounding to two decimals moves a rational by at most 1/200. -/
theorem round2_bounds (q : ℚ) :
    q - 1 / 200 ≤ round2 q ∧ round2 q ≤ q + 1 / 200 := by
  obtain ⟨hl, hr⟩ := roundHalfEven_bounds (q * 100)
  unfold round2
  constructor <;> linarith

/-- Request handlers never modify the process identity. -/
theorem serveAll_fixed (id : Identity) (ts pyver : String) (p : ℕ → ℚ) (fuel : ℕ)
    (parse : String → Option ℚ) (reqs : List Request) :
    serveAll id ts pyver p fuel parse reqs = id := by
  induction reqs with
  | nil => rfl
  | cons r rs ih => exact ih

/-! Claim theorems. -/

/-- C1 (amended): for any duration d with 0 ≤ d ≤ 60 used as the loop
threshold of the `/compute` busy loop, when the loop exits its elapsed time
is at least d and at most d plus the duration bound t of one inner pass;
the reported value, rounded to two decimals, therefore lies within 1/200 of
that window (the claim's statement that the reported rounded value itself
is always ≥ d fails, see the counterexample). -/
theorem compute_elapsed_bounds (p : ℕ → ℚ) (d t : ℚ) (fuel n res : ℕ)
    (hd0 : 0 ≤ d) (_hd60 : d ≤ 60) (hp : ∀ k, 0 ≤ p k) (hpt : ∀ k, p k ≤ t)
    (h : computeLoop p d fuel 0 0 = some (n, res)) :
    d ≤ elapsedAfter p n ∧ elapsedAfter p n ≤ d + t ∧
    d - 1 / 200 ≤ round2 (elapsedAfter p n) ∧
    round2 (elapsedAfter p n) ≤ d + t + 1 / 200 := by
  have hexit := computeLoop_exit p d fuel 0 0 n res h
  have ht : (0:ℚ) ≤ t := le_trans (hp 0) (hpt 0)
  have hupper : elapsedAfter p n ≤ d + t := by
    obtain ⟨-, hor⟩ := computeLoop_progress p d fuel 0 0 n res h
    cases n with
    | zero =>
      have h0 : elapsedAfter p 0 = 0 := rfl
      rw [h0]
      linarith
    | succ m =>
      rcases hor with heq | hlt
      · exact absurd heq (Nat.succ_ne_zero m)
      · have hstep : elapsedAfter p (m + 1) = elapsedAfter p m + p m := rfl
        have hm : elapsedAfter p m < d := by simpa using hlt
        have := hpt m
        linarith
  obtain ⟨hr1, hr2⟩ := round2_bounds (elapsedAfter p n)
  exact ⟨hexit, hupper, by linarith, by linarith⟩

/-- Witness for C1 (amended), at duration 0 with unit pass durations. -/
theorem compute_elapsed_bounds_witness :
    (0:ℚ) ≤ elapsedAfter (fun _ => (1:ℚ)) 0 ∧
    elapsedAfter (fun _ => (1:ℚ)) 0 ≤ 0 + 1 ∧
    (0:ℚ) - 1 / 200 ≤ round2 (elapsedAfter (fun _ => (1:ℚ)) 0) ∧
    round2 (elapsedAfter (fun _ => (1:ℚ)) 0) ≤ 0 + 1 + 1 / 200 :=
  compute_elapsed_bounds (fun _ => 1) 0 1 1 0 0 (le_refl 0) (by norm_num)
    (fun _ => by norm_num) (fun _ => by norm_num) (by decide)

/-- C1 counterexample: a successful `/compute` request for duration
1.003 s whose single inner pass takes 1.0049 s exits the loop with elapsed
time 1.0049 ≥ 1.003, yet the reported `duration_actual`, rounded to two
decimals, is 1.00 < 1.003, refuting the claim that the reported actual
elapsed duration is always ≥ the requested duration. -/
theorem c1_reported_below_requested :
    ((compute ⟨"pod", "ns", "ip"⟩ "T" (fun _ => (10049:ℚ) / 10000) 2
        (fun x => if x = "1.003" then some ((1003:ℚ) / 1000) else none)
        (some "1.003")).getD
      (internalError ⟨"pod", "ns", "ip"⟩)).status = 200 ∧
    ((compute ⟨"pod", "ns", "ip"⟩ "T" (fun _ => (10049:ℚ) / 10000) 2
        (fun x => if x = "1.003" then some ((1003:ℚ) / 1000) else none)
        (some "1.003")).getD
      (internalError ⟨"pod", "ns", "ip"⟩)).body.lookup "duration_actual" =
      some (JVal.num 1) ∧
    (0:ℚ) ≤ 1003 / 1000 ∧ (1003 / 1000 : ℚ) ≤ 60 ∧ (1:ℚ) < 1003 / 1000 := by
  have heff : effDuration (1003 / 1000) = 1003 / 1000 := min_eq_left (by norm_num)
  have hloop : computeLoop (fun _ => (10049:ℚ) / 10000) (effDuration (1003 / 1000)) 2 0 0 =
      some (1, innerPass) := by
    rw [heff, computeLoop,
      if_pos (by norm_num [elapsedAfter] :
        elapsedAfter (fun _ => (10049:ℚ) / 10000) 0 < 1003 / 1000),
      computeLoop,
      if_neg (by norm_num [elapsedAfter] :
        ¬ elapsedAfter (fun _ => (10049:ℚ) / 10000) 1 < 1003 / 1000)]
    simp only [Nat.zero_add]
  have hround : round2 (elapsedAfter (fun _ => (10049:ℚ) / 10000) 1) = 1 := by
    norm_num [round2, roundHalfEven, elapsedAfter]
  refine ⟨?_, ?_, by norm_num, by norm_num, by norm_num⟩
  · simp [compute, compute.computeWith, hloop]
  · simp [compute, compute.computeWith, hloop, hround, List.lookup]

/-- C2: any requested duration above 60 is clamped to exactly 60 by
`min(duration, 60.0)`. -/
theorem effDuration_clamps_above_60 (d : ℚ) (h : 60 < d) : effDuration d = 60 :=
  min_eq_right (le_of_lt h)

/-- Witness for C2, at requested duration 100. -/
theorem effDuration_clamps_above_60_witness : effDuration 100 = 60 :=
  effDuration_clamps_above_60 100 (by norm_num)

/-- C3: a non-positive duration is not clamped from below, the elapsed-time
check is satisfied at the very first guard, the busy loop runs zero inner
passes with result 0, and the elapsed time (and its reported rounding) is
0, i.e. the handler returns near-instantly. -/
theorem compute_nonpositive_duration (p : ℕ → ℚ) (d : ℚ) (fuel : ℕ) (hd : d ≤ 0) :
    effDuration d = d ∧
    computeLoop p (effDuration d) (fuel + 1) 0 0 = some (0, 0) ∧
    elapsedAfter p 0 = 0 ∧ round2 (elapsedAfter p 0) = 0 := by
  have he : effDuration d = d := min_eq_left (le_trans hd (by norm_num))
  refine ⟨he, ?_, rfl, ?_⟩
  · rw [computeLoop, he, if_neg ?_]
    have h0 : elapsedAfter p 0 = 0 := rfl
    rw [h0]
    exact not_lt.mpr hd
  · have h0 : elapsedAfter p 0 = 0 := rfl
    rw [h0]
    norm_num [round2, roundHalfEven]

/-- Witness for C3, at requested duration -1. -/
theorem compute_nonpositive_duration_witness :
    effDuration (-1) = -1 ∧
    computeLoop (fun _ => (1:ℚ)) (effDuration (-1)) (0 + 1) 0 0 = some (0, 0) ∧
    elapsedAfter (fun _ => (1:ℚ)) 0 = 0 ∧
    round2 (elapsedAfter (fun _ => (1:ℚ)) 0) = 0 :=
  compute_nonpositive_duration (fun _ => 1) (-1) 0 (by norm_num)

/-- C4: a `/compute` request whose `duration` parameter does not parse as a
float falls into the generic 500 handler: the response is the
`internal_error` envelope with error "Internal server error", a status
field 500, the pod name, and HTTP status 500. -/
theorem compute_unparseable_500 (id : Identity) (ts pyver : String) (p : ℕ → ℚ)
    (fuel : ℕ) (parse : String → Option ℚ) (s : String) (h : parse s = none) :
    dispatch id ts pyver p fuel parse ⟨"/compute", some s⟩ = some (internalError id) ∧
    (internalError id).status = 500 ∧
    (internalError id).body = [("error", JVal.str "Internal server error"),
      ("status", JVal.num 500), ("pod_name", JVal.str id.podName)] := by
  refine ⟨?_, rfl, rfl⟩
  simp [dispatch, compute, h]

/-- Witness for C4, with a float parser rejecting the string "abc". -/
theorem compute_unparseable_500_witness :
    dispatch ⟨"pod", "ns", "ip"⟩ "T" "py" (fun _ => 1) 1 (fun _ => none)
        ⟨"/compute", some "abc"⟩ = some (internalError ⟨"pod", "ns", "ip"⟩) ∧
    (internalError ⟨"pod", "ns", "ip"⟩).status = 500 ∧
    (internalError ⟨"pod", "ns", "ip"⟩).body =
      [("error", JVal.str "Internal server error"),
       ("status", JVal.num 500), ("pod_name", JVal.str "pod")] :=
  compute_unparseable_500 ⟨"pod", "ns", "ip"⟩ "T" "py" (fun _ => 1) 1 (fun _ => none)
    "abc" rfl

/-- C5 counterexample: a successful `/compute` request asking for duration
100 reports `duration_requested` = 60 (the clamped value), not the 100 the
client asked for, refuting the claim that the `duration_requested` field
equals the duration value the client asked for. -/
theorem c5_requested_is_clamped :
    ((compute ⟨"pod", "ns", "ip"⟩ "T" (fun _ => (61:ℚ)) 2
        (fun x => if x = "100" then some (100:ℚ) else none) (some "100")).getD
      (internalError ⟨"pod", "ns", "ip"⟩)).status = 200 ∧
    ((compute ⟨"pod", "ns", "ip"⟩ "T" (fun _ => (61:ℚ)) 2
        (fun x => if x = "100" then some (100:ℚ) else none) (some "100")).getD
      (internalError ⟨"pod", "ns", "ip"⟩)).body.lookup "duration_requested" =
      some (JVal.num 60) ∧
    (60:ℚ) ≠ 100 := by
  have he : effDuration 100 = 60 := min_eq_right (by norm_num)
  have hloop : computeLoop (fun _ => (61:ℚ)) 60 2 0 0 =
      some (1, innerPass) := by
    rw [computeLoop,
      if_pos (by norm_num [elapsedAfter] : elapsedAfter (fun _ => (61:ℚ)) 0 < 60),
      computeLoop,
      if_neg (by norm_num [elapsedAfter] : ¬ elapsedAfter (fun _ => (61:ℚ)) 1 < 60)]
    simp only [Nat.zero_add]
  refine ⟨?_, ?_, by norm_num⟩ <;>
    simp [compute, compute.computeWith, hloop, he, List.lookup]

/-- C5 (amended): a successful `/compute` response contains the message,
the pod name, the clamped requested duration (equal to the client's value
whenever it is at most 60), the actual elapsed duration rounded to two
decimals, the accumulated result, and the timestamp, with HTTP status
200. -/
theorem compute_success_fields (id : Identity) (ts : String) (p : ℕ → ℚ) (fuel : ℕ)
    (parse : String → Option ℚ) (s : String) (d0 : ℚ) (n res : ℕ)
    (hparse : parse s = some d0)
    (hloop : computeLoop p (effDuration d0) fuel 0 0 = some (n, res)) :
    compute id ts p fuel parse (some s) =
      some { body := [("message", JVal.str "Computation completed"),
                      ("pod_name", JVal.str id.podName),
                      ("duration_requested", JVal.num (effDuration d0)),
                      ("duration_actual", JVal.num (round2 (elapsedAfter p n))),
                      ("result", JVal.num res),
                      ("timestamp", JVal.str ts)],
             status := 200 } ∧
    (d0 ≤ 60 → effDuration d0 = d0) := by
  constructor
  · simp [compute, compute.computeWith, hparse, hloop]
  · intro h
    exact min_eq_left h

/-- Witness for C5 (amended), at requested duration 0. -/
theorem compute_success_fields_witness :
    compute ⟨"pod", "ns", "ip"⟩ "T" (fun _ => (1:ℚ)) 1 (fun _ => some 0) (some "0") =
      some { body := [("message", JVal.str "Computation completed"),
                      ("pod_name", JVal.str "pod"),
                      ("duration_requested", JVal.num (effDuration 0)),
                      ("duration_actual",
                        JVal.num (round2 (elapsedAfter (fun _ => (1:ℚ)) 0))),
                      ("result", JVal.num 0),
                      ("timestamp", JVal.str "T")],
             status := 200 } ∧
    effDuration 0 = 0 :=
  ⟨(compute_success_fields ⟨"pod", "ns", "ip"⟩ "T" (fun _ => 1) 1 (fun _ => some 0) "0"
      0 0 0 rfl (by decide)).1,
   (compute_success_fields ⟨"pod", "ns", "ip"⟩ "T" (fun _ => 1) 1 (fun _ => some 0) "0"
      0 0 0 rfl (by decide)).2 (by norm_num)⟩

/-- C6: `/health` and `/ready` always answer HTTP 200 with status fields
"healthy" and "ready" respectively, and carry the pod name and timestamp,
whatever the rest of the system state is. -/
theorem health_ready_always_200 (id : Identity) (ts pyver : String) (p : ℕ → ℚ)
    (fuel : ℕ) (parse : String → Option ℚ) (dp : Option String) :
    dispatch id ts pyver p fuel parse ⟨"/health", dp⟩ = some (health id ts) ∧
    dispatch id ts pyver p fuel parse ⟨"/ready", dp⟩ = some (ready id ts) ∧
    (health id ts).status = 200 ∧
    (health id ts).body.lookup "status" = some (JVal.str "healthy") ∧
    (health id ts).body.lookup "pod_name" = some (JVal.str id.podName) ∧
    (health id ts).body.lookup "timestamp" = some (JVal.str ts) ∧
    (ready id ts).status = 200 ∧
    (ready id ts).body.lookup "status" = some (JVal.str "ready") ∧
    (ready id ts).body.lookup "pod_name" = some (JVal.str id.podName) ∧
    (ready id ts).body.lookup "timestamp" = some (JVal.str ts) := by
  refine ⟨by simp [dispatch], by simp [dispatch], rfl, rfl, rfl, rfl, rfl, rfl, rfl, rfl⟩

/-- C7: any request to an unregistered route gets the 404 envelope: HTTP
status 404 with a body containing status 404, the error text "Not found",
and the pod name. -/
theorem unregistered_route_404 (id : Identity) (ts pyver : String) (p : ℕ → ℚ)
    (fuel : ℕ) (parse : String → Option ℚ) (req : Request)
    (h : req.path ∉ (["/", "/health", "/ready", "/compute", "/metrics", "/info"] :
      List String)) :
    dispatch id ts pyver p fuel parse req = some (notFound id) ∧
    (notFound id).status = 404 ∧
    (notFound id).body.lookup "status" = some (JVal.num 404) ∧
    (notFound id).body.lookup "error" = some (JVal.str "Not found") ∧
    (notFound id).body.lookup "pod_name" = some (JVal.str id.podName) := by
  simp only [List.mem_cons, List.not_mem_nil, or_false, not_or] at h
  obtain ⟨h1, h2, h3, h4, h5, h6⟩ := h
  exact ⟨by simp [dispatch, h1, h2, h3, h4, h5, h6], rfl, rfl, rfl, rfl⟩

/-- Witness for C7, at the path "/nope". -/
theorem unregistered_route_404_witness :
    dispatch ⟨"pod", "ns", "ip"⟩ "T" "py" (fun _ => 1) 1 (fun _ => none)
        ⟨"/nope", none⟩ = some (notFound ⟨"pod", "ns", "ip"⟩) ∧
    (notFound ⟨"pod", "ns", "ip"⟩).status = 404 ∧
    (notFound ⟨"pod", "ns", "ip"⟩).body.lookup "status" = some (JVal.num 404) ∧
    (notFound ⟨"pod", "ns", "ip"⟩).body.lookup "error" = some (JVal.str "Not found") ∧
    (notFound ⟨"pod", "ns", "ip"⟩).body.lookup "pod_name" = some (JVal.str "pod") :=
  unregistered_route_404 ⟨"pod", "ns", "ip"⟩ "T" "py" (fun _ => 1) 1 (fun _ => none)
    ⟨"/nope", none⟩ (by decide)

/-- C8 counterexample: the `/` route's successful response is a JSON body
with HTTP status 200 but no "status" field at all, refuting the claim that
every response body carries a status field equal to the HTTP status
code. -/
theorem c8_success_body_lacks_status :
    dispatch ⟨"pod", "ns", "ip"⟩ "T" "py" (fun _ => 1) 1 (fun _ => none) ⟨"/", none⟩ =
      some (hello ⟨"pod", "ns", "ip"⟩ "T") ∧
    (hello ⟨"pod", "ns", "ip"⟩ "T").status = 200 ∧
    ¬ hasStatusField (hello ⟨"pod", "ns", "ip"⟩ "T") := by
  refine ⟨by simp [dispatch], rfl, ?_⟩
  simp [hasStatusField, hello, List.lookup]

/-- C8 (amended): only the error envelopes carry a numeric status field
matching the HTTP status code: the 404 and 500 handlers do, while the
success bodies of `/`, `/compute`, `/metrics` and `/info` have no "status"
key at all, and `/health` and `/ready` carry the string statuses "healthy"
and "ready" instead of the HTTP code. -/
theorem error_envelopes_have_status (id : Identity) (ts pyver : String) (p : ℕ → ℚ)
    (fuel : ℕ) (parse : String → Option ℚ) (s : String) (d0 : ℚ) (n res : ℕ)
    (hparse : parse s = some d0)
    (hloop : computeLoop p (effDuration d0) fuel 0 0 = some (n, res)) :
    hasStatusField (notFound id) ∧ hasStatusField (internalError id) ∧
    (hello id ts).body.lookup "status" = none ∧
    (metrics id ts).body.lookup "status" = none ∧
    (info id ts pyver).body.lookup "status" = none ∧
    ((compute id ts p fuel parse (some s)).getD (internalError id)).body.lookup
      "status" = none ∧
    (health id ts).body.lookup "status" = some (JVal.str "healthy") ∧
    (ready id ts).body.lookup "status" = some (JVal.str "ready") ∧
    ¬ hasStatusField (health id ts) ∧ ¬ hasStatusField (ready id ts) := by
  refine ⟨?_, ?_, rfl, rfl, rfl, ?_, rfl, rfl, ?_, ?_⟩
  · simp [hasStatusField, notFound, List.lookup]
  · simp [hasStatusField, internalError, List.lookup]
  · simp [compute, compute.computeWith, hparse, hloop, List.lookup]
  · simp [hasStatusField, health, List.lookup]
  · simp [hasStatusField, ready, List.lookup]

/-- Witness for C8 (amended), with a `/compute` run at requested
duration 0. -/
theorem error_envelopes_have_status_witness :
    hasStatusField (notFound ⟨"pod", "ns", "ip"⟩) ∧
    hasStatusField (internalError ⟨"pod", "ns", "ip"⟩) ∧
    (hello ⟨"pod", "ns", "ip"⟩ "T").body.lookup "status" = none ∧
    (metrics ⟨"pod", "ns", "ip"⟩ "T").body.lookup "status" = none ∧
    (info ⟨"pod", "ns", "ip"⟩ "T" "py").body.lookup "status" = none ∧
    ((compute ⟨"pod", "ns", "ip"⟩ "T" (fun _ => (1:ℚ)) 1 (fun _ => some 0)
        (some "0")).getD (internalError ⟨"pod", "ns", "ip"⟩)).body.lookup
      "status" = none ∧
    (health ⟨"pod", "ns", "ip"⟩ "T").body.lookup "status" =
      some (JVal.str "healthy") ∧
    (ready ⟨"pod", "ns", "ip"⟩ "T").body.lookup "status" =
      some (JVal.str "ready") ∧
    ¬ hasStatusField (health ⟨"pod", "ns", "ip"⟩ "T") ∧
    ¬ hasStatusField (ready ⟨"pod", "ns", "ip"⟩ "T") :=
  error_envelopes_have_status ⟨"pod", "ns", "ip"⟩ "T" "py" (fun _ => 1) 1
    (fun _ => some 0) "0" 0 0 0 rfl (by decide)

/-- C9: the process identity is the value read from the environment at
startup, with defaults "unknown-pod", "default" and the host-resolved
address; serving any sequence of requests leaves it unchanged; and the `/`
response reports exactly that pod name, so with POD_NAME=worker-3 the
`pod_name` field is "worker-3". -/
theorem identity_read_once_immutable (env : String → Option String) (hostIP : String)
    (ts pyver : String) (p : ℕ → ℚ) (fuel : ℕ) (parse : String → Option ℚ)
    (reqs : List Request) :
    serveAll (initIdentity env hostIP) ts pyver p fuel parse reqs =
      initIdentity env hostIP ∧
    (initIdentity env hostIP).podName = (env "POD_NAME").getD "unknown-pod" ∧
    (initIdentity env hostIP).podNamespace = (env "POD_NAMESPACE").getD "default" ∧
    (initIdentity env hostIP).podIP = (env "POD_IP").getD hostIP ∧
    (hello (initIdentity env hostIP) ts).body.lookup "pod_name" =
      some (JVal.str ((env "POD_NAME").getD "unknown-pod")) ∧
    (env "POD_NAME" = some "worker-3" →
      (hello (initIdentity env hostIP) ts).body.lookup "pod_name" =
        some (JVal.str "worker-3")) := by
  refine ⟨serveAll_fixed _ _ _ _ _ _ _, rfl, rfl, rfl, rfl, ?_⟩
  intro h
  simp [hello, initIdentity, h, List.lookup]

/-- Witness for C9, with POD_NAME set to "worker-3" in the environment. -/
theorem identity_read_once_immutable_witness :
    (hello (initIdentity
        (fun k => if k = "POD_NAME" then some "worker-3" else none) "h") "T").body.lookup
      "pod_name" = some (JVal.str "worker-3") :=
  (identity_read_once_immutable
    (fun k => if k = "POD_NAME" then some "worker-3" else none)
    "h" "T" "py" (fun _ => 1) 1 (fun _ => none) []).2.2.2.2.2 (by simp)

/-- C10: whenever the `/compute` busy loop exits after n full outer passes,
the accumulated result equals n times the constant `C_spec` (the sum over i
in 0..999 of the sum of all j in [2, i) dividing i), in particular 0 when
no pass ran, and the response's "result" field reports exactly that
multiple. -/
theorem compute_result_is_multiple (id : Identity) (ts : String) (p : ℕ → ℚ)
    (fuel : ℕ) (parse : String → Option ℚ) (s : String) (d0 : ℚ) (n res : ℕ)
    (hparse : parse s = some d0)
    (hloop : computeLoop p (effDuration d0) fuel 0 0 = some (n, res)) :
    res = n * C_spec ∧ (n = 0 → res = 0) ∧
    ((compute id ts p fuel parse (some s)).getD (internalError id)).body.lookup
      "result" = some (JVal.num ((n * C_spec : ℕ) : ℚ)) := by
  obtain ⟨k, hk1, hk2⟩ := computeLoop_acc p (effDuration d0) fuel 0 0 n res hloop
  have hres : res = n * innerPass := by
    rw [hk2, hk1]
    ring
  have hres2 : res = n * C_spec := by rw [hres, innerPass_eq_C_spec]
  refine ⟨hres2, fun hn => by rw [hres2, hn, Nat.zero_mul], ?_⟩
  rw [← hres2]
  simp [compute, compute.computeWith, hparse, hloop, List.lookup]

/-- Witness for C10, at requested duration 0 (zero passes, result 0). -/
theorem compute_result_is_multiple_witness :
    (0 = 0 * C_spec ∧
      ((compute ⟨"pod", "ns", "ip"⟩ "T" (fun _ => (1:ℚ)) 1 (fun _ => some 0)
          (some "0")).getD (internalError ⟨"pod", "ns", "ip"⟩)).body.lookup "result" =
        some (JVal.num ((0 * C_spec : ℕ) : ℚ))) :=
  ⟨(compute_result_is_multiple ⟨"pod", "ns", "ip"⟩ "T" (fun _ => 1) 1 (fun _ => some 0)
      "0" 0 0 0 rfl (by decide)).1,
   (compute_result_is_multiple ⟨"pod", "ns", "ip"⟩ "T" (fun _ => 1) 1 (fun _ => some 0)
      "0" 0 0 0 rfl (by decide)).2.2⟩

end GkeHpa
